import Mathlib

/-!
# Verification of the record-mapper path engine and mapping interpreter

This file gives a shallow embedding of `src/main.js` of the record-mapper
repository: the JSON value domain, the path reader `getValueByPath`, the
path writer `setValueByPath`, the spec resolver `resolveSpec`, the transform
registry (`countryFromISO`) and the mapping interpreter
(`transform` / `transformOne`), together with theorems settling the
specification claims about them.

Modelling conventions:
* JavaScript `undefined` is a first-class value `JVal.undefined`, distinct from
  `JVal.null`; JSON documents never contain it, but intermediate values do.
* Mutation of the target tree in `setValueByPath` is modelled by returning
  the updated tree.
* JSON numbers are modelled as integers (every number appearing in the
  claims is integral).
* The `Intl.DisplayNames` region lookup inside `countryFromISO` is
  environment-dependent; it is modelled as an explicit parameter
  `intl : String → Option String`, where `none` stands for an absent
  `Intl`, a thrown lookup error, or a falsy result.
* String primitives of JavaScript (`split('.')`, `endsWith`, `slice`,
  `trim`, `toUpperCase`, `startsWith`) are re-implemented structurally on
  the character list of the string so that every definition evaluates by
  kernel reduction.
-/

namespace RecordMapper

/-- The JavaScript value domain flowing through the mapper: JSON values
plus `undefined`. -/
inductive JVal where
  | undefined : JVal
  | null : JVal
  | bool : Bool → JVal
  | num : Int → JVal
  | str : String → JVal
  | arr : List JVal → JVal
  | obj : List (String × JVal) → JVal
deriving Repr, Inhabited

/-- First-match association-list lookup of an object field; a missing key
yields `undefined`, as JavaScript property access does. Keys of a JavaScript
object are unique, so first-match agrees with the object semantics. -/
def lookupField : List (String × JVal) → String → JVal
  | [], _ => .undefined
  | (k, v) :: rest, key => if k = key then v else lookupField rest key

/-- JavaScript object key assignment: an existing key is updated in place
(keeping its position), a new key is appended at the end. -/
def setField : List (String × JVal) → String → JVal → List (String × JVal)
  | [], key, v => [(key, v)]
  | (k, w) :: rest, key, v =>
    if k = key then (key, v) :: rest else (k, w) :: setField rest key v

/-- Digits of a decimal numeral to a natural number. -/
def digitsToNat (cs : List Char) : Nat :=
  cs.foldl (fun n c => n * 10 + (c.toNat - 48)) 0

/-- Canonical decimal index strings: `arr[k]` in JavaScript hits an element
exactly when `k` is the canonical decimal print of an index (no leading
zeros, digits only). -/
def canonNat (s : String) : Option Nat :=
  match s.data with
  | [] => none
  | ['0'] => some 0
  | c :: rest =>
    if c ≠ '0' ∧ (c :: rest).all Char.isDigit then some (digitsToNat (c :: rest))
    else none

/-- JavaScript property read `v[key]`: object field lookup; on arrays a
canonical numeric key hits the element and `length` gives the length;
everything else (including reads through primitives) yields `undefined`.
Prototype-inherited members are outside this JSON-level model. -/
def JVal.get : JVal → String → JVal
  | .obj fs, key => lookupField fs key
  | .arr xs, key =>
    if key = "length" then .num xs.length
    else
      match canonNat key with
      | some i => xs.getD i .undefined
      | none => .undefined
  | _, _ => .undefined

/-- JavaScript array index assignment `xs[i] = v`; assigning past the end
creates holes, which serialize as `null`. -/
def setElem (xs : List JVal) (i : Nat) (v : JVal) : List JVal :=
  if i < xs.length then xs.set i v
  else xs ++ List.replicate (i - xs.length) .null ++ [v]

/-- JavaScript property write `v[key] = w`, observed at the JSON level:
object fields are set; on arrays a canonical numeric key sets the element,
while an expando (non-index) property on an array is invisible to JSON
serialization and hence dropped; writes through primitives do not occur in
the program (the target tree only ever contains objects and arrays). -/
def JVal.setProp : JVal → String → JVal → JVal
  | .obj fs, key, v => .obj (setField fs key v)
  | .arr xs, key, v =>
    (match canonNat key with
     | some i => .arr (setElem xs i v)
     | none => .arr xs)
  | other, _, _ => other

/-- The JavaScript loose test `x == null`, true exactly for `null` and
`undefined`. -/
def isNullish : JVal → Bool
  | .null => true
  | .undefined => true
  | _ => false

/-- `typeof x === "object" && x !== null` at the JSON level: objects and
arrays. Note that JavaScript arrays satisfy `typeof x === "object"`. -/
def jsIsObject : JVal → Bool
  | .obj _ => true
  | .arr _ => true
  | _ => false

mutual

/-- `String(v)` of JavaScript, restricted to the JSON value domain:
arrays join their recursively converted elements with `","`, with `null`
and `undefined` elements contributing the empty string; plain objects
print `[object Object]`. -/
def jsToString : JVal → String
  | .undefined => "undefined"
  | .null => "null"
  | .bool true => "true"
  | .bool false => "false"
  | .num n => toString n
  | .str s => s
  | .arr xs => String.intercalate "," (jsToStringElems xs)
  | .obj _ => "[object Object]"

/-- `Array.prototype.join(",")`: null and undefined elements convert to
the empty string, every other element converts recursively. -/
def jsToStringElems : List JVal → List String
  | [] => []
  | .null :: rest => "" :: jsToStringElems rest
  | .undefined :: rest => "" :: jsToStringElems rest
  | v :: rest => jsToString v :: jsToStringElems rest

end

/-- `value === undefined`. -/
def JVal.isUndefined : JVal → Bool
  | .undefined => true
  | _ => false

/- ----------------------------------------------------------------
   Path reader: `getValueByPath` (src/main.js lines 15-82)
   ---------------------------------------------------------------- -/

/-- Access mode of a path segment: plain property, numeric index, or
array wildcard. -/
inductive SegMode where
  | prop : SegMode
  | index : Nat → SegMode
  | wildcard : SegMode
deriving Repr, DecidableEq

/-- A parsed path segment: field key plus access mode. -/
structure Seg where
  key : String
  mode : SegMode
deriving Repr, DecidableEq

/-- `parseSeg` of `getValueByPath`: the regex
`^([^\x5b]+)(\x5b(\d*)\x5d)?$` applied to one raw segment. The key is one
or more non-bracket characters; an optional trailing bracket group holds
digits (index mode) or nothing (wildcard mode). A segment that fails the
grammar falls back to a plain property access with the whole text as key. -/
def parseSeg (cs : List Char) : Seg :=
  let k := cs.takeWhile (fun c => c ≠ '[')
  let rest := cs.dropWhile (fun c => c ≠ '[')
  match rest with
  | [] => ⟨⟨cs⟩, .prop⟩
  | _ :: tail =>
    -- `rest` starts at the first '[' of the segment; the regex matches
    -- exactly when the key part is nonempty and `tail` is digits followed
    -- by a closing ']' ending the segment.
    if k ≠ [] ∧ tail.getLast? = some ']' ∧ tail.dropLast.all Char.isDigit then
      if tail.dropLast = [] then ⟨⟨k⟩, .wildcard⟩
      else ⟨⟨k⟩, .index (digitsToNat tail.dropLast)⟩
    else ⟨⟨cs⟩, .prop⟩

/-- JavaScript `path.split(".")` on the character list: always returns at
least one (possibly empty) part. -/
def splitOnDot : List Char → List (List Char)
  | [] => [[]]
  | c :: rest =>
    if c = '.' then [] :: splitOnDot rest
    else
      match splitOnDot rest with
      | g :: gs => (c :: g) :: gs
      | [] => [[c]]

/-- Traversal state of the reader loop: a single current value, or the
array-flow sequence produced once a wildcard has been crossed. -/
inductive Flow where
  | scalar : JVal → Flow
  | arrayFlow : List JVal → Flow
deriving Repr

/-- Entering array flow from a scalar (line 49): an array becomes the
sequence, null/absent becomes the empty sequence, any other value is
wrapped as a one-element sequence. -/
def wildcardInit : JVal → List JVal
  | .arr xs => xs
  | .null => []
  | .undefined => []
  | v => [v]

/-- One array-flow item processed against one segment (lines 56-76):
null/undefined items are skipped entirely; a plain segment collects the
item's key value; an index segment collects the indexed value when the key
value is an array and `undefined` otherwise; a wildcard segment flattens an
array key value one level, keeps a non-nullish scalar, and drops null. -/
def flowItemStep (sg : Seg) (item : JVal) : List JVal :=
  if isNullish item then []
  else
    let val := item.get sg.key
    match sg.mode with
    | .prop => [val]
    | .index i =>
      match val with
      | .arr ys => [ys.getD i .undefined]
      | _ => [.undefined]
    | .wildcard =>
      match val with
      | .arr ys => ys
      | .null => []
      | .undefined => []
      | v => [v]

/-- The main loop of `getValueByPath` over the raw dot-separated parts
(lines 35-79), parsing each segment as it goes. -/
def getLoop : Flow → List (List Char) → JVal
  | .scalar v, [] => v
  | .arrayFlow xs, [] => .arr xs
  | .scalar v, seg :: rest =>
    let sg := parseSeg seg
    if isNullish v then .undefined
    else
      match sg.mode with
      | .prop => getLoop (.scalar (v.get sg.key)) rest
      | .index i =>
        match v.get sg.key with
        | .arr xs => getLoop (.scalar (xs.getD i .undefined)) rest
        | _ => .undefined
      | .wildcard => getLoop (.arrayFlow (wildcardInit (v.get sg.key))) rest
  | .arrayFlow xs, seg :: rest =>
    getLoop (.arrayFlow (List.flatten (xs.map (flowItemStep (parseSeg seg))))) rest

/-- `getValueByPath(obj, path)` (lines 15-82). A `null` path cannot occur
since paths are strings here; the empty path yields `undefined`. -/
def getValueByPath (obj : JVal) (path : String) : JVal :=
  if path = "" then .undefined
  else getLoop (.scalar obj) (splitOnDot path.data)

/- ----------------------------------------------------------------
   Path writer: `setValueByPath` (src/main.js lines 87-130)
   ---------------------------------------------------------------- -/

/-- `raw.endsWith("[]")` on the character list. -/
def endsWithBrackets (cs : List Char) : Bool :=
  match cs.reverse with
  | ']' :: '[' :: _ => true
  | _ => false

/-- The writer loop of `setValueByPath` (lines 93-129), returning the
updated current container. A segment ending in `[]` ensures an array at
the key; if last, an array value replaces the contents wholesale
(`value.slice()`) and any other value is pushed; otherwise index 0 of the
array is ensured to be a JavaScript object (`!x || typeof x !== "object"`
installs `{}`; note an array at index 0 passes that test and is kept) and
is descended into. A plain segment assigns directly when last, and
otherwise ensures an object at the key (`x == null || typeof x !==
"object"` installs `{}`; an existing array passes and is descended into)
before descending. -/
def setLoop (current : JVal) (segs : List (List Char)) (value : JVal) : JVal :=
  match segs with
  | [] => current
  | raw :: rest =>
    let isArraySeg := endsWithBrackets raw
    let key : String := if isArraySeg then ⟨raw.dropLast.dropLast⟩ else ⟨raw⟩
    if isArraySeg then
      let base : List JVal :=
        match current.get key with
        | .arr xs => xs
        | _ => []
      match rest with
      | [] =>
        match value with
        | .arr vs => current.setProp key (.arr vs)
        | _ => current.setProp key (.arr (base ++ [value]))
      | r :: rs =>
        let head := base.getD 0 .undefined
        let carrier := if jsIsObject head then head else .obj []
        current.setProp key (.arr (setElem base 0 (setLoop carrier (r :: rs) value)))
    else
      match rest with
      | [] => current.setProp key value
      | r :: rs =>
        let next := current.get key
        let tgt := if jsIsObject next then next else .obj []
        current.setProp key (setLoop tgt (r :: rs) value)

/-- `setValueByPath(target, path, value)` (lines 87-130): a no-op when the
value is `undefined`; mutation of the target is modelled by returning the
updated tree. -/
def setValueByPath (target : JVal) (path : String) (value : JVal) : JVal :=
  if value.isUndefined then target
  else setLoop target (splitOnDot path.data) value

/- ----------------------------------------------------------------
   Transform registry (src/main.js lines 135-162)
   ---------------------------------------------------------------- -/

/-- JavaScript `trim()` on the character list (ASCII whitespace). -/
def strTrim (s : String) : String :=
  ⟨((s.data.dropWhile Char.isWhitespace).reverse.dropWhile Char.isWhitespace).reverse⟩

/-- JavaScript `toUpperCase()` on the character list (ASCII letters). -/
def strToUpper (s : String) : String :=
  ⟨s.data.map Char.toUpper⟩

/-- The static code → name fallback table of `countryFromISO`
(lines 153-159). -/
def isoFallback (c : String) : Option String :=
  if c = "GB" then some "United Kingdom"
  else if c = "US" then some "United States"
  else if c = "PH" then some "Philippines"
  else if c = "CA" then some "Canada"
  else if c = "AU" then some "Australia"
  else none

/-- `code == null || code === ""`: null, undefined, or the empty string. -/
def isNullishOrEmptyStr : JVal → Bool
  | .null => true
  | .undefined => true
  | .str s => s == ""
  | _ => false

/-- `transforms.countryFromISO(code)` (lines 137-161). The
`Intl.DisplayNames` region lookup is the explicit parameter `intl`;
`intl n = none` covers an absent `Intl`, a thrown lookup, and a falsy
result, all of which fall through to the static table. A lookup result
equal to the normalized code is also rejected (`name !== normalized`).
The last resort returns the normalized code (`fallback[normalized] ||
normalized`). -/
def countryFromISO (intl : String → Option String) (code : JVal) : JVal :=
  if isNullishOrEmptyStr code then .undefined
  else
    let normalized := strToUpper (strTrim (jsToString code))
    let viaIntl : Option String :=
      match intl normalized with
      | some name => if name ≠ "" ∧ name ≠ normalized then some name else none
      | none => none
    match viaIntl with
    | some name => .str name
    | none =>
      match isoFallback normalized with
      | some n => .str n
      | none => .str normalized

/-- The lookup `transforms[fnName]` followed by the
`typeof fn === "function"` test (lines 219-220). The registry object
`transforms` (lines 135-162) has one own entry, `countryFromISO`, but as
an object literal it inherits from `Object.prototype`, so the property
lookup also finds the standard function-valued members `constructor`
(the `Object` function), `hasOwnProperty`, `isPrototypeOf`,
`propertyIsEnumerable`, `toLocaleString`, `toString`, `valueOf` and the
four `__defineGetter__`-family utilities; those pass the typeof test and
are invoked by the interpreter. The accessor `__proto__` reads as
`Object.prototype`, which is not a function, so it (like every other
name) yields `none`. Returned functions model the strict-mode call
`fn(...args)` with an `undefined` receiver, observed at the JSON level:
`toString` returns the string `[object Undefined]`; `Object` as a
function returns `ToObject(args[0])` (a fresh `{}` for a nullish
argument; primitive wrapper objects serialize as the primitive);
`isPrototypeOf` returns `false` for a non-object argument before
touching its receiver and otherwise throws; the remaining inherited
members all begin by converting the `undefined` receiver to an object
and throw a TypeError, surfaced as `Except.error`. `countryFromISO`
never throws. -/
def transformsRegistry (intl : String → Option String) (name : String) :
    Option (List JVal → Except String JVal) :=
  if name = "countryFromISO" then
    some fun args => .ok (countryFromISO intl (args.getD 0 .undefined))
  else if name = "toString" then
    some fun _ => .ok (.str "[object Undefined]")
  else if name = "constructor" then
    some fun args =>
      .ok (match args.getD 0 .undefined with
           | .undefined => .obj []
           | .null => .obj []
           | v => v)
  else if name = "isPrototypeOf" then
    some fun args =>
      if jsIsObject (args.getD 0 .undefined) then .error "TypeError"
      else .ok (.bool false)
  else if name = "valueOf" ∨ name = "toLocaleString" ∨ name = "hasOwnProperty" ∨
      name = "propertyIsEnumerable" ∨ name = "__defineGetter__" ∨
      name = "__defineSetter__" ∨ name = "__lookupGetter__" ∨
      name = "__lookupSetter__" then
    some fun _ => .error "TypeError"
  else none

/- ----------------------------------------------------------------
   Spec resolver: `resolveSpec` (src/main.js lines 168-191)
   ---------------------------------------------------------------- -/

/-- The guard of lines 172-177 and 243-248: a non-array object owning the
given key. -/
def hasKeyB (v : JVal) (key : String) : Bool :=
  match v with
  | .obj fs => fs.any fun p => p.1 = key
  | _ => false

/-- `s.startsWith("=")`. -/
def strStartsWithEq (s : String) : Bool :=
  match s.data with
  | '=' :: _ => true
  | _ => false

/-- `s.slice(1)`: drop the first character. -/
def strTail (s : String) : String :=
  ⟨s.data.tail⟩

/-- `resolveSpec(input, spec)` (lines 168-191): nullish or empty-string
specs yield `undefined`; a `$literal` wrapper yields its value; any other
non-string is returned as-is; a string starting with `=` loses exactly one
leading `=` (both the `==` branch and the plain branch of line 186 are
`spec.slice(1)`); any other string is read as a path from the input. -/
def resolveSpec (input : JVal) (spec : JVal) : JVal :=
  if isNullishOrEmptyStr spec then .undefined
  else if hasKeyB spec "$literal" then spec.get "$literal"
  else
    match spec with
    | .str s =>
      if strStartsWithEq s then .str (strTail s)
      else getValueByPath input s
    | v => v

/- ----------------------------------------------------------------
   Mapping interpreter: `transform` / `transformOne`
   (src/main.js lines 195-276)
   ---------------------------------------------------------------- -/

/-- `sourceSpec === "" || sourceSpec === null` (line 209): the strict
skip test of the interpreter (which, unlike `resolveSpec`, does not skip
`undefined` here). -/
def isSkippedEntry : JVal → Bool
  | .str s => s == ""
  | .null => true
  | _ => false

/-- Argument computation for a transform directive (lines 225-231):
`$args` wins over `$path`; a non-array `$args` is wrapped into a
one-element list; each raw argument is resolved through `resolveSpec`;
with neither key the argument list is empty. -/
def directiveArgs (input : JVal) (spec : JVal) : List JVal :=
  if hasKeyB spec "$args" then
    let rawArgs : List JVal :=
      match spec.get "$args" with
      | .arr xs => xs
      | a => [a]
    rawArgs.map (resolveSpec input)
  else if hasKeyB spec "$path" then
    [resolveSpec input (spec.get "$path")]
  else []

/-- One entry of the `transformOne` loop (lines 207-273), mapping the
accumulated result object to its updated form. Warnings printed with
`console.warn` are outside the JSON-value model; observably the offending
entry leaves the result unchanged. -/
def transformStep (intl : String → Option String) (input : JVal) (result : JVal)
    (targetPath : String) (sourceSpec : JVal) : JVal :=
  if isSkippedEntry sourceSpec then result
  else if hasKeyB sourceSpec "$transform" then
    let fnName := jsToString (sourceSpec.get "$transform")
    match transformsRegistry intl fnName with
    | none => result          -- unknown transform: warn and skip
    | some fn =>
      match fn (directiveArgs input sourceSpec) with
      | .error _ => result    -- transform threw: warn and skip
      | .ok out => if out.isUndefined then result else setValueByPath result targetPath out
  else if hasKeyB sourceSpec "$literal" then
    setValueByPath result targetPath (sourceSpec.get "$literal")
  else
    match sourceSpec with
    | .str s =>
      if strStartsWithEq s then setValueByPath result targetPath (.str (strTail s))
      else
        match getValueByPath input s with
        | .undefined => result    -- nothing to set
        | value => setValueByPath result targetPath value
    | v => setValueByPath result targetPath v

/-- `transformOne(input, mapping)` (lines 204-276): fold the mapping
entries, in order, over an initially empty result object. The mapping is
the entry list of the mapping object (`Object.entries` insertion order). -/
def transformOne (intl : String → Option String) (input : JVal)
    (mapping : List (String × JVal)) : JVal :=
  mapping.foldl (fun result e => transformStep intl input result e.1 e.2) (.obj [])

/-- `transform(input, mapping)` (lines 195-201): a root-level array input
is mapped per item; anything else is transformed as a single record. -/
def transform (intl : String → Option String) (input : JVal)
    (mapping : List (String × JVal)) : JVal :=
  match input with
  | .arr xs => .arr (xs.map fun item => transformOne intl item mapping)
  | v => transformOne intl v mapping

/- ----------------------------------------------------------------
   Helper lemmas
   ---------------------------------------------------------------- -/

/-- A concrete `intl` environment with no resolvable region names: an
absent or always-failing `Intl.DisplayNames`. -/
def intlNone : String → Option String := fun _ => none

/-- `split` never returns an empty list of parts. -/
theorem splitOnDot_ne_nil (cs : List Char) : splitOnDot cs ≠ [] := by
  cases cs with
  | nil => simp [splitOnDot]
  | cons c rest =>
    simp only [splitOnDot]
    split
    · simp
    · split <;> simp

/-- A string whose first character is `=` is nonempty. -/
theorem ne_empty_of_strStartsWithEq {s : String} (h : strStartsWithEq s = true) :
    s ≠ "" := by
  intro he
  subst he
  simp [strStartsWithEq] at h

/-- The `spec == null || spec === ""` guard is false on nonempty strings. -/
theorem isNullishOrEmptyStr_str {s : String} (hs : s ≠ "") :
    isNullishOrEmptyStr (.str s) = false := by
  simp [isNullishOrEmptyStr, hs]

/-- An entry whose step leaves every accumulator unchanged can be removed
from the mapping without changing `transformOne`. -/
theorem transformOne_skip_entry (intl : String → Option String) (input : JVal)
    (pre post : List (String × JVal)) (t : String) (spec : JVal)
    (h : ∀ acc : JVal, transformStep intl input acc t spec = acc) :
    transformOne intl input (pre ++ (t, spec) :: post) =
      transformOne intl input (pre ++ post) := by
  unfold transformOne
  simp only [List.foldl_append, List.foldl_cons, h]

/-- Round-trip of write-then-read over a nonempty list of raw segments
that are all plain on both the writer side (no trailing `[]`) and the
reader side (parsed in property mode). -/
theorem roundtrip_aux (v : JVal) :
    ∀ segs : List (List Char), segs ≠ [] →
      (∀ s ∈ segs, parseSeg s = ⟨⟨s⟩, .prop⟩ ∧ endsWithBrackets s = false) →
      getLoop (.scalar (setLoop (.obj []) segs v)) segs = v := by
  intro segs
  induction segs with
  | nil => intro h; exact absurd rfl h
  | cons s rest ih =>
    intro _ hall
    obtain ⟨hparse, hbr⟩ := hall s (by simp)
    cases rest with
    | nil =>
      simp [setLoop, hbr, getLoop, hparse, JVal.setProp, setField, JVal.get,
        lookupField, isNullish]
    | cons r rs =>
      have hrec := ih (by simp)
        (fun x hx => hall x (List.mem_cons_of_mem s hx))
      simp only [setLoop, hbr, Bool.false_eq_true, if_false, JVal.get,
        lookupField, jsIsObject, JVal.setProp, setField]
      simp only [getLoop, hparse, isNullish, Bool.false_eq_true, if_false,
        JVal.get, lookupField, if_pos rfl]
      exact hrec

/- ----------------------------------------------------------------
   Claim C1
   ---------------------------------------------------------------- -/

/-- C1 counterexample: the path `"a[0]"` contains no `[]`-suffixed
(wildcard) segment, yet writing `7` at it into a fresh empty object and
reading it back yields `undefined`, not `7`: the writer stores the literal
key `"a[0]"` while the reader parses an index access. -/
theorem C1_counterexample :
    getValueByPath (setValueByPath (.obj []) "a[0]" (.num 7)) "a[0]" = .undefined ∧
    JVal.undefined ≠ JVal.num 7 := by
  exact ⟨rfl, by simp⟩

/-- C1 (amended): for every nonempty path string `p` all of whose
dot-separated segments carry no bracket suffix at all — each segment
parses in plain property mode (ruling out `[n]` index segments as well as
`[]` wildcards) and does not end with `[]` — and every JSON value `v`
other than `undefined`, writing `v` at `p` into a fresh empty object with
`setValueByPath` and reading `p` back with `getValueByPath` returns `v`. -/
theorem C1_roundtrip_plain_path (p : String) (v : JVal)
    (hp : p ≠ "")
    (hsegs : ∀ s ∈ splitOnDot p.data,
      parseSeg s = ⟨⟨s⟩, .prop⟩ ∧ endsWithBrackets s = false)
    (hv : v ≠ JVal.undefined) :
    getValueByPath (setValueByPath (.obj []) p v) p = v := by
  have hvu : v.isUndefined = false := by
    cases v <;> simp_all [JVal.isUndefined]
  unfold setValueByPath getValueByPath
  rw [hvu, if_neg hp]
  simp only [Bool.false_eq_true, if_false]
  exact roundtrip_aux v (splitOnDot p.data) (splitOnDot_ne_nil p.data) hsegs

/-- Witness for C1 (amended) at the concrete path `"a.b"` and value `7`. -/
theorem C1_roundtrip_plain_path_witness :
    getValueByPath (setValueByPath (.obj []) "a.b" (.num 7)) "a.b" = .num 7 :=
  C1_roundtrip_plain_path "a.b" (.num 7) (by decide) (by decide) (by simp)

/- ----------------------------------------------------------------
   Claim C2
   ---------------------------------------------------------------- -/

/-- C2: in scalar state a wildcard segment takes the value at the key as
the new array-flow sequence if it is an array, the empty sequence if it is
null or absent, and a one-element sequence otherwise; in array flow a
wildcard segment flattens one level per item and null (or undefined) items
and values contribute nothing; the two concrete reads of the claim hold:
`a[].b[]` over `{a:[{b:[1,2]},{b:[3]}]}` is `[1,2,3]`, and `x[].v` over
`{x:{v:7}}` is `[7]`. -/
theorem C2_wildcard_semantics :
    (∀ (v : JVal) (seg : List Char) (key : String) (rest : List (List Char)),
       parseSeg seg = ⟨key, .wildcard⟩ → isNullish v = false →
       getLoop (.scalar v) (seg :: rest) =
         getLoop (.arrayFlow
           (match v.get key with
            | .arr xs => xs
            | .null => []
            | .undefined => []
            | w => [w])) rest) ∧
    (∀ (key : String) (item : JVal), isNullish item = true →
       flowItemStep ⟨key, .wildcard⟩ item = []) ∧
    (∀ (key : String) (item : JVal), isNullish item = false →
       flowItemStep ⟨key, .wildcard⟩ item =
         (match item.get key with
          | .arr ys => ys
          | .null => []
          | .undefined => []
          | w => [w])) ∧
    getValueByPath (.obj [("a", .arr [.obj [("b", .arr [.num 1, .num 2])],
        .obj [("b", .arr [.num 3])]])]) "a[].b[]" = .arr [.num 1, .num 2, .num 3] ∧
    getValueByPath (.obj [("x", .obj [("v", .num 7)])]) "x[].v" = .arr [.num 7] := by
  have hw : ∀ x : JVal, wildcardInit x =
      (match x with
       | .arr xs => xs
       | .null => []
       | .undefined => []
       | w => [w]) := by
    intro x; cases x <;> rfl
  refine ⟨?_, ?_, ?_, rfl, rfl⟩
  · intro v seg key rest hparse hnn
    simp only [getLoop, hparse, hnn, Bool.false_eq_true, if_false, hw]
  · intro key item h
    simp [flowItemStep, h]
  · intro key item h
    simp only [flowItemStep, h, Bool.false_eq_true, if_false]

/-- Witness for C2 at concrete inputs: entering array flow wraps the
non-array value `{k:5}`-at-`k` into a singleton; a null array-flow item
contributes nothing; a wildcard over an array key value flattens it. -/
theorem C2_wildcard_semantics_witness :
    getLoop (.scalar (.obj [("k", .num 5)])) [['k', '[', ']']] =
      getLoop (.arrayFlow [JVal.num 5]) [] ∧
    flowItemStep ⟨"b", .wildcard⟩ .null = [] ∧
    flowItemStep ⟨"b", .wildcard⟩ (.obj [("b", .arr [.num 1, .num 2])]) =
      [.num 1, .num 2] :=
  ⟨C2_wildcard_semantics.1 (.obj [("k", .num 5)]) ['k', '[', ']'] "k" [] (by decide) rfl,
   C2_wildcard_semantics.2.1 "b" .null rfl,
   C2_wildcard_semantics.2.2.1 "b" (.obj [("b", .arr [.num 1, .num 2])]) rfl⟩

/- ----------------------------------------------------------------
   Claim C3
   ---------------------------------------------------------------- -/

/-- C3 counterexample: when index 0 of the carrier array holds an *array*
(which is not an object in the JSON data model, but satisfies JavaScript's
`typeof x === "object"`), `setValueByPath` does not install `{}` there; it
descends into the array, where the property write is not representable in
JSON, so the target is observably unchanged instead of the claimed
`{a:[{b:5}]}`. -/
theorem C3_counterexample :
    setValueByPath (.obj [("a", .arr [.arr []])]) "a[].b" (.num 5) =
      .obj [("a", .arr [.arr []])] ∧
    JVal.obj [("a", .arr [.arr []])] ≠
      JVal.obj [("a", .arr [.obj [("b", .num 5)]])] := by
  exact ⟨rfl, by simp⟩

/-- C3 (amended): on a non-terminal array-marked segment `key[]`,
`setValueByPath` ensures `current[key]` is an array and uses its index-0
element as the carrier to descend into — keeping the existing element when
it is a JavaScript object (a JSON object *or array*, since JavaScript
arrays satisfy `typeof x === "object"`) and installing a fresh `{}` only
when it is absent or a primitive; consequently writing
`emails[].email = "a@b.com"` and then `emails[].isPrimary = true` into the
same empty target yields `{emails:[{email:"a@b.com", isPrimary:true}]}` —
exactly one array element, built field-by-field. -/
theorem C3_array_carrier :
    (∀ (fs : List (String × JVal)) (raw r : List Char) (rs : List (List Char))
       (value : JVal),
       endsWithBrackets raw = true →
       setLoop (.obj fs) (raw :: r :: rs) value =
         (let key : String := ⟨raw.dropLast.dropLast⟩
          let base : List JVal :=
            match lookupField fs key with
            | .arr xs => xs
            | _ => []
          let head := base.getD 0 .undefined
          let carrier := if jsIsObject head then head else .obj []
          .obj (setField fs key
            (.arr (setElem base 0 (setLoop carrier (r :: rs) value)))))) ∧
    setValueByPath (setValueByPath (.obj []) "emails[].email" (.str "a@b.com"))
        "emails[].isPrimary" (.bool true) =
      .obj [("emails",
        .arr [.obj [("email", .str "a@b.com"), ("isPrimary", .bool true)]])] := by
  constructor
  · intro fs raw r rs value hbr
    simp only [setLoop, hbr, if_true, JVal.get, JVal.setProp]
  · rfl

/-- Witness for C3 (amended): one array-carrier write into a fresh target
installs `{}` at index 0 and builds the field inside it. -/
theorem C3_array_carrier_witness :
    setLoop (.obj []) [['a', '[', ']'], ['b']] (.num 1) =
      .obj [("a", .arr [.obj [("b", .num 1)]])] :=
  (C3_array_carrier.1 [] ['a', '[', ']'] ['b'] [] (.num 1) rfl).trans rfl

/- ----------------------------------------------------------------
   Claim C4
   ---------------------------------------------------------------- -/

/-- C4 counterexample: an existing *array* at the key of a non-terminal
plain segment is not replaced by a fresh `{}` — it satisfies JavaScript's
`typeof x === "object"` test on line 124 — so writing `a.b = 5` over
`{a:[1,2]}` leaves the array in place (the property write on the array is
invisible to JSON), contradicting the claimed replacement-by-`{}` for
"any non-object value, including arrays". -/
theorem C4_counterexample :
    setValueByPath (.obj [("a", .arr [.num 1, .num 2])]) "a.b" (.num 5) =
      .obj [("a", .arr [.num 1, .num 2])] ∧
    JVal.obj [("a", .arr [.num 1, .num 2])] ≠
      JVal.obj [("a", .obj [("b", .num 5)])] := by
  exact ⟨rfl, by simp⟩

/-- C4 (amended): on a non-terminal plain (non-array-marked) segment,
`setValueByPath` creates a fresh `{}` at the key exactly when the existing
value is absent, null, or a primitive (boolean, number, string); when the
existing value is a JavaScript object — a JSON object *or array*, arrays
passing the `typeof x === "object"` test — it descends into that existing
value; writing `a.b = 5` into an empty target yields `{a:{b:5}}`. -/
theorem C4_plain_descend :
    (∀ (fs : List (String × JVal)) (raw r : List Char) (rs : List (List Char))
       (value : JVal),
       endsWithBrackets raw = false →
       jsIsObject (lookupField fs ⟨raw⟩) = false →
       setLoop (.obj fs) (raw :: r :: rs) value =
         .obj (setField fs ⟨raw⟩ (setLoop (.obj []) (r :: rs) value))) ∧
    (∀ (fs : List (String × JVal)) (raw r : List Char) (rs : List (List Char))
       (value : JVal),
       endsWithBrackets raw = false →
       jsIsObject (lookupField fs ⟨raw⟩) = true →
       setLoop (.obj fs) (raw :: r :: rs) value =
         .obj (setField fs ⟨raw⟩ (setLoop (lookupField fs ⟨raw⟩) (r :: rs) value))) ∧
    setValueByPath (.obj []) "a.b" (.num 5) = .obj [("a", .obj [("b", .num 5)])] := by
  refine ⟨?_, ?_, rfl⟩
  · intro fs raw r rs value hbr hobj
    simp only [setLoop, hbr, Bool.false_eq_true, if_false, JVal.get, hobj,
      JVal.setProp]
  · intro fs raw r rs value hbr hobj
    simp only [setLoop, hbr, Bool.false_eq_true, if_false, JVal.get, hobj,
      if_true, JVal.setProp]

/-- Witness for C4 (amended): a fresh `{}` is created under an empty
target, and an existing object at the key is descended into. -/
theorem C4_plain_descend_witness :
    setLoop (.obj []) [['a'], ['b']] (.num 5) = .obj [("a", .obj [("b", .num 5)])] ∧
    setLoop (.obj [("a", .obj [("c", .num 1)])]) [['a'], ['b']] (.num 5) =
      .obj [("a", .obj [("c", .num 1), ("b", .num 5)])] :=
  ⟨(C4_plain_descend.1 [] ['a'] ['b'] [] (.num 5) rfl rfl).trans rfl,
   (C4_plain_descend.2.1 [("a", .obj [("c", .num 1)])] ['a'] ['b'] [] (.num 5)
      rfl rfl).trans rfl⟩

/- ----------------------------------------------------------------
   Claim C5
   ---------------------------------------------------------------- -/

/-- C5: `setValueByPath` with an `undefined` value leaves any target
unchanged for every path; and in the interpreter an entry whose plain
source path resolves to `undefined` (missing key, wrong-shape index
access, out-of-range index — all of which surface as `getValueByPath`
returning `undefined`) writes no key into the output record: removing the
entry from the mapping yields the same output. All functions are total,
so no error is raised. -/
theorem C5_undefined_never_written :
    (∀ (target : JVal) (p : String), setValueByPath target p .undefined = target) ∧
    (∀ (intl : String → Option String) (input result : JVal) (t s : String),
       strStartsWithEq s = false → getValueByPath input s = .undefined →
       transformStep intl input result t (.str s) = result) ∧
    (∀ (intl : String → Option String) (input : JVal) (t s : String)
       (pre post : List (String × JVal)),
       strStartsWithEq s = false → getValueByPath input s = .undefined →
       transformOne intl input (pre ++ (t, .str s) :: post) =
         transformOne intl input (pre ++ post)) := by
  have hstep : ∀ (intl : String → Option String) (input result : JVal) (t s : String),
      strStartsWithEq s = false → getValueByPath input s = .undefined →
      transformStep intl input result t (.str s) = result := by
    intro intl input result t s hsw hget
    by_cases hs : s = ""
    · subst hs
      simp [transformStep, isSkippedEntry]
    · simp [transformStep, isSkippedEntry, hs, hasKeyB, hsw, hget]
  refine ⟨?_, hstep, ?_⟩
  · intro target p
    simp [setValueByPath, JVal.isUndefined]
  · intro intl input t s pre post hsw hget
    exact transformOne_skip_entry intl input pre post t (.str s)
      (fun acc => hstep intl input acc t s hsw hget)

/-- Witness for C5: writing `undefined` is a no-op on a concrete target,
and a concrete unresolvable source path entry drops out of the mapping. -/
theorem C5_undefined_never_written_witness :
    setValueByPath (.obj [("x", .num 1)]) "a.b" .undefined = .obj [("x", .num 1)] ∧
    transformOne intlNone (.obj [("x", .num 1)])
        [("a", .str "missing.key"), ("b", .str "=ok")] =
      transformOne intlNone (.obj [("x", .num 1)]) [("b", .str "=ok")] :=
  ⟨C5_undefined_never_written.1 (.obj [("x", .num 1)]) "a.b",
   C5_undefined_never_written.2.2 intlNone (.obj [("x", .num 1)]) "a" "missing.key"
     [] [("b", .str "=ok")] rfl rfl⟩

/- ----------------------------------------------------------------
   Claim C6
   ---------------------------------------------------------------- -/

/-- C6 counterexample: the name `toString` is not present in the
registry (the `transforms` object's only own entry is `countryFromISO`),
yet the entry is *not* skipped: the property lookup finds the inherited
`Object.prototype.toString`, which passes the `typeof` test and, invoked
with a strict-mode `undefined` receiver, returns `"[object Undefined]"`,
which the interpreter writes — so the output differs from the output for
the mapping with the entry removed. -/
theorem C6_counterexample :
    transformOne intlNone (.obj [])
        [("x", .obj [("$transform", .str "toString")])] =
      .obj [("x", .str "[object Undefined]")] ∧
    transformOne intlNone (.obj []) ([] : List (String × JVal)) = .obj [] ∧
    JVal.obj [("x", .str "[object Undefined]")] ≠ JVal.obj [] := by
  exact ⟨rfl, rfl, by simp⟩

/-- C6 (amended): a mapping entry whose value carries a `$transform` key
naming a function that the JavaScript property lookup on the `transforms`
object does not find (neither the own entry `countryFromISO` nor a
function-valued member inherited from `Object.prototype`), or whose found
function faults on invocation (`Except.error` at the call boundary), is
skipped — the interpreter's output equals the output for the same mapping
with that entry removed, whatever its position, and all other entries are
still processed. The `console.warn` diagnostics are outside the
JSON-value model. -/
theorem C6_bad_transform_entry_skipped :
    ∀ (intl : String → Option String) (input : JVal) (t : String) (spec : JVal)
      (pre post : List (String × JVal)),
      hasKeyB spec "$transform" = true →
      (transformsRegistry intl (jsToString (spec.get "$transform")) = none ∨
        (∃ fn e,
          transformsRegistry intl (jsToString (spec.get "$transform")) = some fn ∧
          fn (directiveArgs input spec) = .error e)) →
      transformOne intl input (pre ++ (t, spec) :: post) =
        transformOne intl input (pre ++ post) := by
  intro intl input t spec pre post hkey hbad
  apply transformOne_skip_entry
  intro acc
  obtain ⟨fs, rfl⟩ : ∃ fs, spec = .obj fs := by
    cases spec <;> simp_all [hasKeyB]
  simp only [transformStep, isSkippedEntry, hkey, if_true, Bool.false_eq_true,
    if_false]
  rcases hbad with hnone | ⟨fn, e, hfn, herr⟩
  · simp [hnone]
  · simp [hfn, herr]

/-- Witness for C6 (amended): an entry naming the unknown transform
`nope` drops out while the following entry is still processed, and so
does an entry whose found function (`Object.prototype.valueOf`, which
throws a TypeError on its strict-mode `undefined` receiver) faults. -/
theorem C6_bad_transform_entry_skipped_witness :
    transformOne intlNone (.obj [("x", .num 1)])
        [("a", .obj [("$transform", .str "nope"), ("$path", .str "x")]),
         ("b", .str "x")] =
      transformOne intlNone (.obj [("x", .num 1)]) [("b", .str "x")] ∧
    transformOne intlNone (.obj [("x", .num 1)])
        [("a", .obj [("$transform", .str "valueOf")]), ("b", .str "x")] =
      transformOne intlNone (.obj [("x", .num 1)]) [("b", .str "x")] :=
  ⟨C6_bad_transform_entry_skipped intlNone (.obj [("x", .num 1)]) "a"
     (.obj [("$transform", .str "nope"), ("$path", .str "x")])
     [] [("b", .str "x")] rfl (Or.inl rfl),
   C6_bad_transform_entry_skipped intlNone (.obj [("x", .num 1)]) "a"
     (.obj [("$transform", .str "valueOf")])
     [] [("b", .str "x")] rfl (Or.inr ⟨_, "TypeError", rfl, rfl⟩)⟩

/- ----------------------------------------------------------------
   Claim C7
   ---------------------------------------------------------------- -/

/-- C7: on an array input, `transform` maps the single-item
`transformOne` over the elements — the result is the same-length,
order-preserving array whose `i`-th element is the transform of the
`i`-th input item; each item is processed by the same pure function of
(item, mapping) alone, so no state is shared between items. -/
theorem C7_array_input_mapped_independently :
    ∀ (intl : String → Option String) (xs : List JVal) (m : List (String × JVal)),
      transform intl (.arr xs) m = .arr (xs.map fun x => transformOne intl x m) ∧
      (xs.map fun x => transformOne intl x m).length = xs.length := by
  intro intl xs m
  exact ⟨rfl, by simp⟩

/- ----------------------------------------------------------------
   Claim C8
   ---------------------------------------------------------------- -/

/-- C8 counterexample: for the code `"q7"` — which neither a region-name
lookup (the structurally invalid region `Q7` makes `Intl.DisplayNames.of`
throw, modelled by `intlNone`) nor the static fallback table resolves —
`countryFromISO` returns the *normalized* code `"Q7"`
(`fallback[normalized] || normalized`), not the input code `"q7"`
unchanged. -/
theorem C8_counterexample :
    countryFromISO intlNone (.str "q7") = .str "Q7" ∧
    JVal.str "Q7" ≠ JVal.str "q7" :=
  ⟨rfl, by simp⟩

/-- C8 (amended): `countryFromISO` normalizes its argument to an
uppercase trimmed string and depends only on that normalization;
`countryFromISO("GB")` is `"United Kingdom"` (whether the locale lookup
resolves it or the static table does); for every non-empty code that
neither the locale-aware lookup nor the static fallback resolves, the
*normalized* (uppercased, trimmed) code is returned; the function is
total and never returns `undefined` for a non-empty string input; a null
or empty code returns `undefined`. -/
theorem C8_countryFromISO_normalized :
    (∀ (intl : String → Option String) (s₁ s₂ : String), s₁ ≠ "" → s₂ ≠ "" →
       strToUpper (strTrim s₁) = strToUpper (strTrim s₂) →
       countryFromISO intl (.str s₁) = countryFromISO intl (.str s₂)) ∧
    (∀ intl : String → Option String,
       intl "GB" = none ∨ intl "GB" = some "United Kingdom" →
       countryFromISO intl (.str "GB") = .str "United Kingdom") ∧
    (∀ (intl : String → Option String) (s : String), s ≠ "" →
       intl (strToUpper (strTrim s)) = none →
       isoFallback (strToUpper (strTrim s)) = none →
       countryFromISO intl (.str s) = .str (strToUpper (strTrim s))) ∧
    (∀ (intl : String → Option String) (s : String), s ≠ "" →
       countryFromISO intl (.str s) ≠ .undefined) ∧
    (∀ intl : String → Option String,
       countryFromISO intl .null = .undefined ∧ countryFromISO intl (.str "") = .undefined) := by
  refine ⟨?_, ?_, ?_, ?_, fun intl => ⟨rfl, rfl⟩⟩
  · intro intl s₁ s₂ h1 h2 heq
    simp only [countryFromISO, isNullishOrEmptyStr_str h1, isNullishOrEmptyStr_str h2,
      Bool.false_eq_true, if_false]
    rw [show jsToString (JVal.str s₁) = s₁ from rfl,
      show jsToString (JVal.str s₂) = s₂ from rfl, heq]
  · intro intl h
    have hne : ("GB" : String) ≠ "" := by decide
    simp only [countryFromISO, isNullishOrEmptyStr_str hne, Bool.false_eq_true,
      if_false]
    rw [show strToUpper (strTrim (jsToString (JVal.str "GB"))) = "GB" from rfl]
    rcases h with h | h <;> simp [h, isoFallback]
  · intro intl s hne hintl hfb
    simp only [countryFromISO, isNullishOrEmptyStr_str hne, Bool.false_eq_true,
      if_false]
    rw [show jsToString (JVal.str s) = s from rfl, hintl, hfb]
  · intro intl s hne
    simp only [countryFromISO, isNullishOrEmptyStr_str hne, Bool.false_eq_true,
      if_false]
    rw [show jsToString (JVal.str s) = s from rfl]
    rcases hI : intl (strToUpper (strTrim s)) with _ | name
    · rcases hF : isoFallback (strToUpper (strTrim s)) with _ | n <;> simp [hI, hF]
    · by_cases hc : name ≠ "" ∧ name ≠ strToUpper (strTrim s)
      · simp [hI, hc]
      · rcases hF : isoFallback (strToUpper (strTrim s)) with _ | n <;>
          simp [hI, hc, hF]

/-- Witness for C8 (amended): whitespace/case-normalization of `" gb "`,
the `GB` lookup, a concrete unresolved code `"zz"` returning `"ZZ"`, and
non-undefined-ness, all under the Intl-less environment. -/
theorem C8_countryFromISO_normalized_witness :
    countryFromISO intlNone (.str " gb ") = countryFromISO intlNone (.str "GB") ∧
    countryFromISO intlNone (.str "GB") = .str "United Kingdom" ∧
    countryFromISO intlNone (.str "zz") = .str "ZZ" ∧
    countryFromISO intlNone (.str "zz") ≠ .undefined :=
  ⟨C8_countryFromISO_normalized.1 intlNone " gb " "GB" (by decide) (by decide)
     (by decide),
   C8_countryFromISO_normalized.2.1 intlNone (Or.inl rfl),
   C8_countryFromISO_normalized.2.2.1 intlNone "zz" (by decide) rfl rfl,
   C8_countryFromISO_normalized.2.2.2.1 intlNone "zz" (by decide)⟩

/- ----------------------------------------------------------------
   Claim C9
   ---------------------------------------------------------------- -/

/-- C9: for every string entry value beginning with `=`, both
`resolveSpec` and the interpreter's literal-string branch strip exactly
one leading `=` (the `==` test on line 186/262 selects the same
`slice(1)`), return the remainder as a literal, and never consult the
input; `resolveSpec(_, "=GBP") = "GBP"` and
`resolveSpec(_, "==lead") = "=lead"`, and the interpreter writes the same
literals. -/
theorem C9_literal_strips_one_eq :
    (∀ (input : JVal) (s : String), strStartsWithEq s = true →
       resolveSpec input (.str s) = .str (strTail s)) ∧
    (∀ (input1 input2 : JVal) (s : String), strStartsWithEq s = true →
       resolveSpec input1 (.str s) = resolveSpec input2 (.str s)) ∧
    (∀ (intl : String → Option String) (input result : JVal) (t s : String),
       strStartsWithEq s = true →
       transformStep intl input result t (.str s) =
         setValueByPath result t (.str (strTail s))) ∧
    resolveSpec (.obj []) (.str "=GBP") = .str "GBP" ∧
    resolveSpec (.obj []) (.str "==lead") = .str "=lead" ∧
    (∀ intl : String → Option String,
       transformOne intl (.obj []) [("t", .str "=GBP")] = .obj [("t", .str "GBP")] ∧
       transformOne intl (.obj []) [("t", .str "==lead")] =
         .obj [("t", .str "=lead")]) := by
  have h1 : ∀ (input : JVal) (s : String), strStartsWithEq s = true →
      resolveSpec input (.str s) = .str (strTail s) := by
    intro input s h
    have hne := ne_empty_of_strStartsWithEq h
    simp [resolveSpec, isNullishOrEmptyStr_str hne, hasKeyB, h]
  refine ⟨h1, ?_, ?_, rfl, rfl, fun intl => ⟨rfl, rfl⟩⟩
  · intro input1 input2 s h
    rw [h1 input1 s h, h1 input2 s h]
  · intro intl input result t s h
    have hne := ne_empty_of_strStartsWithEq h
    have hskip : isSkippedEntry (.str s) = false := by
      simp [isSkippedEntry, hne]
    simp [transformStep, hskip, hasKeyB, h]

/-- Witness for C9 at concrete literal strings. -/
theorem C9_literal_strips_one_eq_witness :
    resolveSpec (.obj [("a", .num 1)]) (.str "=GBP") = .str "GBP" ∧
    transformStep intlNone (.obj []) (.obj []) "t" (.str "==lead") =
      setValueByPath (.obj []) "t" (.str "=lead") :=
  ⟨C9_literal_strips_one_eq.1 (.obj [("a", .num 1)]) "=GBP" rfl,
   C9_literal_strips_one_eq.2.2.1 intlNone (.obj []) (.obj []) "t" "==lead" rfl⟩

/- ----------------------------------------------------------------
   Claim C10
   ---------------------------------------------------------------- -/

/-- C10: in a transform directive, `$args` takes priority — when the
`$args` key is present the argument list is computed from it alone
(so a simultaneous `$path` is ignored); a non-array `$args` value is
wrapped into a one-element raw list; each raw argument is resolved via
`resolveSpec`; with neither `$args` nor `$path` the argument list is
empty; concretely, a directive carrying both `$args: "=US"` and
`$path: "p"` invokes `countryFromISO` on `"US"`, ignoring `p`. -/
theorem C10_directive_argument_selection :
    (∀ (input spec : JVal), hasKeyB spec "$args" = true →
       directiveArgs input spec =
         (match spec.get "$args" with
          | .arr xs => xs
          | a => [a]).map (resolveSpec input)) ∧
    (∀ (input spec a : JVal), hasKeyB spec "$args" = true →
       spec.get "$args" = a → (∀ xs, a ≠ .arr xs) →
       directiveArgs input spec = [resolveSpec input a]) ∧
    (∀ (input spec : JVal), hasKeyB spec "$args" = false →
       hasKeyB spec "$path" = false → directiveArgs input spec = []) ∧
    (∀ intl : String → Option String,
       intl "US" = none ∨ intl "US" = some "United States" →
       transform intl (.obj [("p", .str "GB")])
           [("c", .obj [("$transform", .str "countryFromISO"),
                        ("$args", .str "=US"), ("$path", .str "p")])] =
         .obj [("c", .str "United States")]) := by
  have h1 : ∀ (input spec : JVal), hasKeyB spec "$args" = true →
      directiveArgs input spec =
        (match spec.get "$args" with
         | .arr xs => xs
         | a => [a]).map (resolveSpec input) := by
    intro input spec h
    simp [directiveArgs, h]
  refine ⟨h1, ?_, ?_, ?_⟩
  · intro input spec a hkey hget hne
    rw [h1 input spec hkey, hget]
    cases a with
    | arr xs => exact absurd rfl (hne xs)
    | undefined => rfl
    | null => rfl
    | bool b => rfl
    | num n => rfl
    | str s => rfl
    | obj fs => rfl
  · intro input spec hargs hpath
    simp [directiveArgs, hargs, hpath]
  · intro intl h
    have hc : countryFromISO intl (.str "US") = .str "United States" := by
      have hne : ("US" : String) ≠ "" := by decide
      simp only [countryFromISO, isNullishOrEmptyStr_str hne, Bool.false_eq_true,
        if_false]
      rw [show strToUpper (strTrim (jsToString (JVal.str "US"))) = "US" from rfl]
      rcases h with h | h <;> simp [h, isoFallback]
    have hstep : transform intl (.obj [("p", .str "GB")])
        [("c", .obj [("$transform", .str "countryFromISO"),
                     ("$args", .str "=US"), ("$path", .str "p")])] =
        (if (countryFromISO intl (.str "US")).isUndefined then (.obj [] : JVal)
         else setValueByPath (.obj []) "c" (countryFromISO intl (.str "US"))) := rfl
    rw [hstep, hc]
    rfl

/-- Witness for C10: concrete argument lists for a both-keys directive, a
keyless directive, and the end-to-end both-keys invocation. -/
theorem C10_directive_argument_selection_witness :
    directiveArgs (.obj [("p", .str "GB")])
        (.obj [("$transform", .str "countryFromISO"),
               ("$args", .str "=US"), ("$path", .str "p")]) = [.str "US"] ∧
    directiveArgs (.obj []) (.obj [("$transform", .str "x")]) = [] ∧
    transform intlNone (.obj [("p", .str "GB")])
        [("c", .obj [("$transform", .str "countryFromISO"),
                     ("$args", .str "=US"), ("$path", .str "p")])] =
      .obj [("c", .str "United States")] :=
  ⟨C10_directive_argument_selection.2.1 (.obj [("p", .str "GB")])
     (.obj [("$transform", .str "countryFromISO"),
            ("$args", .str "=US"), ("$path", .str "p")])
     (.str "=US") rfl rfl (fun _ h => nomatch h),
   C10_directive_argument_selection.2.2.1 (.obj []) (.obj [("$transform", .str "x")])
     rfl rfl,
   C10_directive_argument_selection.2.2.2 intlNone (Or.inl rfl)⟩

end RecordMapper
